import Mathlib

/-!
# archive_windows.c : POSIX compatibility glue on top of the Win32 API

A shallow embedding of `libarchive/archive_windows.c`.

* C strings are lists of characters; a `char *` that may be `NULL` is an
  `Option`.
* Machine integers are `Nat` / `Int` with the conversions of the C source
  written out (`% 2 ^ w`, `CIntTy.cast`).
* The Win32 / CRT primitives the file calls are fields of `World`; every call
  is appended to `World.log`, so "the native call was not made" is a statement
  about the log.
* `ino_t`, `dev_t`, `_WIN64` come from headers that are not part of the file;
  they are the fields of `Target`.  `Target.documented` is the configuration
  the comments of `get_dev_ino` describe.
-/

namespace ArchiveWindows

/-! ## C integer types -/

/-- An integer type of the C implementation: its size in bytes and its signedness. -/
structure CIntTy where
  bytes : Nat
  signed : Bool
  deriving DecidableEq, Repr

/-- Width in bits, `8 * sizeof(T)`. -/
def CIntTy.bits (t : CIntTy) : Nat := 8 * t.bytes

/-- Conversion `(T) x` of an integer to the type `T` (two's complement wrap). -/
def CIntTy.cast (t : CIntTy) (x : Int) : Int :=
  let m := x % (2 : Int) ^ t.bits
  if t.signed = true ∧ (2 : Int) ^ t.bits ≤ 2 * m then m - (2 : Int) ^ t.bits else m

/-- The value `x` is representable in the type `t`. -/
def CIntTy.Representable (t : CIntTy) (x : Int) : Prop :=
  if t.signed = true then -(2 : Int) ^ t.bits ≤ 2 * x ∧ 2 * x < (2 : Int) ^ t.bits
  else 0 ≤ x ∧ x < (2 : Int) ^ t.bits

/-- What `x >> n` yields for a 32-bit `x` when `n` is not smaller than 32.  The C
standard leaves it undefined; compilers either fold it to `0` or emit the x86
`shr`, which uses the count modulo 32. -/
inductive WideShift where
  | zero
  | masked
  deriving DecidableEq, Repr

/-- Build configuration: the types and switches taken from the platform headers. -/
structure Target where
  ino_t : CIntTy
  dev_t : CIntTy
  wideShift : WideShift
  win64 : Bool
  deriving DecidableEq, Repr

/-- The configuration documented in `get_dev_ino`:
`dev_t: short (2 bytes);  ino_t: unsigned int (4 bytes)`. -/
def Target.documented : Target :=
  { ino_t := ⟨4, false⟩, dev_t := ⟨2, true⟩, wideShift := WideShift.zero, win64 := false }

/-- A 64-bit configuration (`_WIN64` defined) whose `dev_t` is an unsigned 32-bit
integer. -/
def Target.wideDev : Target :=
  { ino_t := ⟨4, false⟩, dev_t := ⟨4, false⟩, wideShift := WideShift.zero, win64 := true }

/-! ## errno values and `_access` modes -/

def EBADF : Int := 9
def EINVAL : Int := 22
def F_OK : Nat := 0
def R_OK : Nat := 4

/-! ## The native world -/

abbrev CString := List Char

abbrev HANDLE := Int

def INVALID_HANDLE_VALUE : HANDLE := -1

/-- The three fields of `BY_HANDLE_FILE_INFORMATION` the file reads. -/
structure BY_HANDLE_FILE_INFORMATION where
  dwVolumeSerialNumber : Nat
  nFileIndexHigh : Nat
  nFileIndexLow : Nat
  deriving DecidableEq, Repr

/-- The record `struct _stati64`. -/
structure stati64 where
  st_dev : Int
  st_ino : Int
  st_mode : Int
  st_nlink : Int
  st_uid : Int
  st_gid : Int
  st_rdev : Int
  st_size : Int
  st_atime : Int
  st_mtime : Int
  st_ctime : Int
  deriving DecidableEq, Repr

/-- A `FILETIME`: two 32-bit halves. -/
structure FILETIME where
  dwLowDateTime : Nat
  dwHighDateTime : Nat
  deriving DecidableEq, Repr

/-- A file of the native file system. -/
structure File where
  content : List Nat
  readable : Bool
  readonly : Bool
  deriving DecidableEq, Repr

/-- Native calls, as they appear in the log. -/
inductive Call where
  | access (path : CString) (mode : Nat)
  | CopyFile (src dst : CString) (bFailIfExists : Bool)
  | get_osfhandle (fd : Int)
  | GetFileInformationByHandle (h : HANDLE)
  | CreateFile (path : CString) (access share flags : Nat)
  | CloseHandle (h : HANDLE)
  | fstati64 (fd : Int)
  | SetFileTime (h : HANDLE) (atime mtime : FILETIME)
  | SetFilePointerEx (h : HANDLE) (distance : Int) (whence : Int)
  | WriteFile (h : HANDLE) (buf : List Nat) (n : Nat)
  | GetLastError
  deriving DecidableEq, Repr

/-- State of the process and of the operating system as far as the file sees it. -/
structure World where
  /-- the file system: path to file -/
  files : CString → Option File
  /-- native `_get_osfhandle` -/
  osfhandle : Int → HANDLE
  /-- native `CreateFile (..., OPEN_EXISTING, ...)`: the handle, or `INVALID_HANDLE_VALUE` -/
  createFile : CString → Nat → Nat → Nat → HANDLE
  /-- native `GetFileInformationByHandle`: `none` when the call returns `FALSE` -/
  fileInformation : HANDLE → Option BY_HANDLE_FILE_INFORMATION
  /-- native `_fstati64`: result and the record as the call leaves it -/
  nativeStat : Int → stati64 → Int × stati64
  /-- native `SetFileTime`: whether the call returns non-zero -/
  setFileTime : HANDLE → FILETIME → FILETIME → Bool
  /-- native `SetFilePointerEx`: the new pointer, `none` when the call returns `FALSE` -/
  setFilePointerEx : HANDLE → Int → Int → Option Int
  /-- native `WriteFile`: the number of bytes written, `none` when the call returns `FALSE` -/
  writeFile : HANDLE → List Nat → Nat → Option Nat
  /-- native `GetLastError` -/
  lastError : Nat
  /-- the CRT map `_dosmaperr` -/
  dosmaperr : Nat → Int
  errno : Int
  log : List Call

def World.called (w : World) (c : Call) : World := { w with log := w.log ++ [c] }

def set_errno (e : Int) (w : World) : World := { w with errno := e }

/-! ## File identity: `get_dev_ino` and its entry points -/

def LODWORD (l : Nat) : Nat := (l % 2 ^ 64) % 2 ^ 32

def HIDWORD (l : Nat) : Nat := (((l % 2 ^ 64) >>> 32) &&& 0xFFFFFFFF) % 2 ^ 32

def MAKEDWORDLONG (a b : Nat) : Nat :=
  ((a % 2 ^ 32) ||| (((b % 2 ^ 32) <<< 32) % 2 ^ 64)) % 2 ^ 64

def INOSIZE (T : Target) : Nat := 8 * T.ino_t.bytes

def SEQNUMSIZE : Nat := 16

/-- The expression `x >> n` for a `DWORD` `x`. -/
def shrDWORD (m : WideShift) (x n : Nat) : Nat :=
  if n < 32 then (x % 2 ^ 32) >>> n
  else
    match m with
    | WideShift.zero => 0
    | WideShift.masked => (x % 2 ^ 32) >>> (n % 32)

/-- The output pair `*dev`, `*ino`. -/
structure DevIno where
  dev : Int
  ino : Int
  deriving DecidableEq, Repr

/-- Line 134: `ino64`. -/
def ino64 (fi : BY_HANDLE_FILE_INFORMATION) : Nat :=
  MAKEDWORDLONG fi.nFileIndexLow fi.nFileIndexHigh

/-- Line 136: `FileReferenceNumber`, the sequence number removed. -/
def FileReferenceNumber (fi : BY_HANDLE_FILE_INFORMATION) : Nat :=
  ino64 fi &&& ((2 ^ 64 - 1) >>> SEQNUMSIZE)

/-- Lines 138-142: `resino`. -/
def resino (T : Target) (fi : BY_HANDLE_FILE_INFORMATION) : Int :=
  T.ino_t.cast
    ((LODWORD (FileReferenceNumber fi) ^^^
      shrDWORD T.wideShift (LODWORD (FileReferenceNumber fi)) (INOSIZE T) : Nat) : Int)

/-- Lines 144-146: `resdev`. -/
def resdev (T : Target) (fi : BY_HANDLE_FILE_INFORMATION) : Int :=
  T.dev_t.cast ((fi.dwVolumeSerialNumber % 2 ^ 32 : Nat) : Int)

/-- The function `get_dev_ino`: returns the status, the output pair and the world. -/
def get_dev_ino (T : Target) (hFile : HANDLE) (_out : DevIno) (w : World) :
    Int × DevIno × World :=
  let out : DevIno := { dev := 0, ino := 0 }
  if hFile = INVALID_HANDLE_VALUE then (0, out, w)
  else
    let w := w.called (Call.GetFileInformationByHandle hFile)
    match w.fileInformation hFile with
    | none => (0, out, w)
    | some fi => (0, { dev := resdev T fi, ino := resino T fi }, w)

def get_dev_ino_fd (T : Target) (fd : Int) (out : DevIno) (w : World) :
    Int × DevIno × World :=
  let w := w.called (Call.get_osfhandle fd)
  let hFile := w.osfhandle fd
  get_dev_ino T hFile out w

/-- The native `_access`: `0` when the file exists and has the mode, else `-1`. -/
def _access (path : CString) (mode : Nat) (w : World) : Int × World :=
  let w := w.called (Call.access path mode)
  match w.files path with
  | none => (-1, w)
  | some f => if mode = R_OK ∧ f.readable = false then (-1, w) else (0, w)

def FILE_FLAG_BACKUP_SEMANTICS : Nat := 0x02000000
def FILE_ATTRIBUTE_READONLY : Nat := 0x00000001

def get_dev_ino_filename (T : Target) (path : Option CString) (out : DevIno) (w : World) :
    Int × DevIno × World :=
  match path with
  | none => (0, out, w)
  | some [] => (0, out, w)
  | some (c :: cs) =>
    let p := c :: cs
    let (a, w) := _access p F_OK w
    if a ≠ 0 then (-1, out, w)
    else
      let w := w.called
        (Call.CreateFile p 0 0 (FILE_FLAG_BACKUP_SEMANTICS ||| FILE_ATTRIBUTE_READONLY))
      let hFile := w.createFile p 0 0 (FILE_FLAG_BACKUP_SEMANTICS ||| FILE_ATTRIBUTE_READONLY)
      let (res, out, w) := get_dev_ino T hFile out w
      let w := w.called (Call.CloseHandle hFile)
      (res, out, w)

/-! ## `fstati64` -/

def fstati64 (T : Target) (fd : Int) (st : stati64) (w : World) : Int × stati64 × World :=
  let w := w.called (Call.fstati64 fd)
  let (res, st) := w.nativeStat fd st
  if res < 0 then (-1, st, w)
  else if st.st_ino = 0 then
    let (res, out, w) := get_dev_ino_fd T fd { dev := st.st_dev, ino := st.st_ino } w
    (res, { st with st_dev := out.dev, st_ino := out.ino }, w)
  else (res, st, w)

/-! ## `link` and `symlink` -/

/-- Native `CopyFile`: fails when the source is missing or unreadable, when the
destination exists and `bFailIfExists` is set, and when the destination exists and is
read-only; otherwise the destination becomes a copy of the source. -/
def CopyFile (src dst : CString) (bFailIfExists : Bool) (w : World) : Int × World :=
  let w := w.called (Call.CopyFile src dst bFailIfExists)
  match w.files src with
  | none => (0, w)
  | some f =>
    if f.readable = false then (0, w)
    else
      match w.files dst with
      | some g =>
        if bFailIfExists = true ∨ g.readonly = true then (0, w)
        else (1, { w with files := fun p => if p = dst then some f else w.files p })
      | none => (1, { w with files := fun p => if p = dst then some f else w.files p })

/-- The allocator behind `strdup`; memory is taken to be never exhausted. -/
def strdup (s : CString) : Option CString := some s

/-- The allocator `malloc`: a buffer of `n` bytes; memory is taken to be never exhausted. -/
def malloc (n : Nat) : Option Nat := some n

def strlen (s : CString) : Nat := s.length

/-- Index of the last occurrence of `c` in `s`, `none` when there is none. -/
def strrchr : CString → Char → Option Nat
  | [], _ => none
  | x :: xs, c =>
    match strrchr xs c with
    | some i => some (i + 1)
    | none => if x = c then some 0 else none

/-- Lines 95-99 of `link`: the result of `CopyFile` turned into the return value. -/
def link_result (r : Int × World) : Int × World :=
  if r.1 = 0 then (-1, set_errno EINVAL r.2) else (0, r.2)

def link (from_ to_ : Option CString) (w : World) : Int × World :=
  match from_, to_ with
  | none, _ => (-1, set_errno EINVAL w)
  | _, none => (-1, set_errno EINVAL w)
  | some f, some t =>
    let (a, w) := _access f F_OK w
    if a = 0 then link_result (CopyFile f t false w)
    else
      match strdup t with
      | none => (-1, w)
      | some todir =>
        let todir :=
          match strrchr todir '/' with
          | some slash => todir.take slash
          | none => todir
        match malloc (strlen f + strlen todir + 2) with
        | none => (-1, w)
        | some _ =>
          let full := todir ++ ['/'] ++ f
          let (a, w) := _access full R_OK w
          if a ≠ 0 then (-1, w)
          else link_result (CopyFile full t false w)

def symlink (from_ to_ : Option CString) (w : World) : Int × World :=
  link from_ to_ w

/-! ## Time stamps -/

def LONG : CIntTy := ⟨4, true⟩
def LONGLONG : CIntTy := ⟨8, true⟩
def UINT64 : CIntTy := ⟨8, false⟩

/-- The SDK macro `Int32x32To64(a, b)`, `(__int64)(long)(a) * (__int64)(long)(b)`. -/
def Int32x32To64 (a b : Int) : Int := LONGLONG.cast (LONG.cast a * LONG.cast b)

/-- Line 188: the macro `WINTIME(sec, usec)`; `usec * 10` is computed in `long`. -/
def WINTIME (sec usec : Int) : Int :=
  LONGLONG.cast
    (LONGLONG.cast (Int32x32To64 sec 10000000 + 116444736000000000) + LONG.cast (usec * 10))

/-- The record `struct __timeval`. -/
structure timeval where
  tv_sec : Int
  tv_usec : Int
  deriving DecidableEq, Repr

/-- The variable `wintm` of `__hutimes`: the macro value stored in a `uint64_t`. -/
def wintm (t : timeval) : Nat := (UINT64.cast (WINTIME t.tv_sec t.tv_usec)).toNat

/-- Lines 196-197: the two halves stored for a `wintm`. -/
def toFILETIME (tm : Nat) : FILETIME :=
  { dwLowDateTime := tm % 2 ^ 32, dwHighDateTime := (tm >>> 32) % 2 ^ 32 }

def __hutimes (handle : HANDLE) (times : timeval × timeval) (w : World) : Int × World :=
  let fatime := toFILETIME (wintm times.1)
  let fmtime := toFILETIME (wintm times.2)
  let w := w.called (Call.SetFileTime handle fatime fmtime)
  if w.setFileTime handle fatime fmtime = false then (-1, set_errno EINVAL w) else (0, w)

def futimes (fd : Int) (times : timeval × timeval) (w : World) : Int × World :=
  let w := w.called (Call.get_osfhandle fd)
  __hutimes (w.osfhandle fd) times w

def GENERIC_READ : Nat := 0x80000000
def GENERIC_WRITE : Nat := 0x40000000
def FILE_SHARE_READ : Nat := 0x00000001
def FILE_SHARE_WRITE : Nat := 0x00000002

def utimes (name : CString) (times : timeval × timeval) (w : World) : Int × World :=
  let w := w.called (Call.CreateFile name (GENERIC_READ ||| GENERIC_WRITE)
    (FILE_SHARE_READ ||| FILE_SHARE_WRITE) FILE_FLAG_BACKUP_SEMANTICS)
  let handle := w.createFile name (GENERIC_READ ||| GENERIC_WRITE)
    (FILE_SHARE_READ ||| FILE_SHARE_WRITE) FILE_FLAG_BACKUP_SEMANTICS
  if handle = INVALID_HANDLE_VALUE then (-1, set_errno EINVAL w)
  else
    let (ret, w) := __hutimes handle times w
    let w := w.called (Call.CloseHandle handle)
    (ret, w)

/-! ## Seek and write -/

def la_lseek (fd : Int) (offset : Int) (whence : Int) (w : World) : Int × World :=
  if fd < 0 then (-1, set_errno EBADF w)
  else
    let w := w.called (Call.get_osfhandle fd)
    let h := w.osfhandle fd
    let w := w.called (Call.SetFilePointerEx h offset whence)
    match w.setFilePointerEx h offset whence with
    | none =>
      let w := w.called Call.GetLastError
      (-1, set_errno (w.dosmaperr w.lastError) w)
    | some newpointer => (newpointer, w)

def UINT32_MAX : Nat := 2 ^ 32 - 1

/-- The type `ssize_t` of the build. -/
def ssize_t (T : Target) : CIntTy := if T.win64 = true then LONGLONG else LONG

def la_write (T : Target) (fd : Int) (buf : List Nat) (nbytes : Nat) (w : World) :
    Int × World :=
  if T.win64 = true ∧ nbytes > UINT32_MAX then (-1, set_errno EINVAL w)
  else if fd < 0 then (-1, set_errno EBADF w)
  else
    let w := w.called (Call.get_osfhandle fd)
    let h := w.osfhandle fd
    let w := w.called (Call.WriteFile h buf (nbytes % 2 ^ 32))
    match w.writeFile h buf (nbytes % 2 ^ 32) with
    | none =>
      let w := w.called Call.GetLastError
      (-1, set_errno (w.dosmaperr w.lastError) w)
    | some bytes_written => ((ssize_t T).cast (bytes_written % 2 ^ 32 : Nat), w)

/-! ## Sample worlds -/

/-- A world with the files `x`, `y` and `b/a.txt`, descriptor `3` on a
file whose reference number has a set bit 32, and a native stat that fails on
descriptors above 9 and reports inode 0 otherwise. -/
def World.sample : World :=
  { files := fun p =>
      if p = "x".toList then some ⟨[1, 2, 3], true, false⟩
      else if p = "y".toList then some ⟨[9], true, false⟩
      else if p = "b/a.txt".toList then some ⟨[7, 7], true, false⟩
      else none
    osfhandle := fun fd => if fd = 3 then 100 else if fd = 4 then 101 else -1
    createFile := fun p _ _ _ => if p = "x".toList then 100 else -1
    fileInformation := fun h =>
      if h = 100 then some ⟨0x12345678, 1, 0⟩
      else if h = 101 then some ⟨0x12345678, 0xABCD0001, 0⟩
      else none
    nativeStat := fun fd st =>
      if fd > 9 then (-1, { st with st_size := 5 }) else (0, { st with st_ino := 0, st_size := 3 })
    setFileTime := fun _ _ _ => true
    setFilePointerEx := fun _ d _ => some d
    writeFile := fun _ _ n => some n
    lastError := 0
    dosmaperr := fun _ => EINVAL
    errno := 0
    log := [] }

/-- An all-zero stat record. -/
def stati64.zero : stati64 := ⟨0, 0, 0, 0, 0, 0, 0, 0, 0, 0, 0⟩

/-- The fold as the specification words it: the 48-bit reference number, its low 32
bits XOR its value shifted right by 32 bits. -/
def spec_fold (r : Nat) : Nat :=
  let f := r % 2 ^ 48
  (f % 2 ^ 32) ^^^ (f >>> 32)

/-! ## Lemmas on the integer conversions -/

theorem CIntTy.cast_zero (t : CIntTy) : t.cast 0 = 0 := by
  have hpos : (0 : Int) < (2 : Int) ^ t.bits := by positivity
  unfold CIntTy.cast
  simp only [Int.zero_emod, mul_zero]
  rw [if_neg]
  intro h
  omega

theorem CIntTy.cast_eq_self (t : CIntTy) (x : Int) (h : t.Representable x) : t.cast x = x := by
  have hpos : (0 : Int) < (2 : Int) ^ t.bits := by positivity
  unfold CIntTy.Representable at h
  unfold CIntTy.cast
  generalize (2 : Int) ^ t.bits = B at *
  by_cases hs : t.signed = true
  · rw [if_pos hs] at h
    by_cases hx : 0 ≤ x
    · have hm : x % B = x := Int.emod_eq_of_lt hx (by omega)
      simp only [hm]
      rw [if_neg]
      omega
    · have hm : x % B = x + B := by
        have h1 : (x + B) % B = x + B := Int.emod_eq_of_lt (by omega) (by omega)
        rw [← h1, Int.add_emod_self]
      simp only [hm]
      rw [if_pos ⟨hs, by omega⟩]
      omega
  · rw [if_neg hs] at h
    have hm : x % B = x := Int.emod_eq_of_lt h.1 h.2
    simp only [hm]
    rw [if_neg]
    intro hc
    exact hs hc.1

theorem FileReferenceNumber_eq_mod (fi : BY_HANDLE_FILE_INFORMATION) :
    FileReferenceNumber fi = ino64 fi % 2 ^ 48 := by
  unfold FileReferenceNumber SEQNUMSIZE
  have hc : ((2 ^ 64 - 1) >>> 16 : Nat) = 2 ^ 48 - 1 := by decide
  rw [hc, Nat.and_pow_two_sub_one_eq_mod]

@[simp] theorem World.called_fileInformation (w : World) (c : Call) :
    (w.called c).fileInformation = w.fileInformation := rfl

@[simp] theorem World.called_osfhandle (w : World) (c : Call) :
    (w.called c).osfhandle = w.osfhandle := rfl

@[simp] theorem World.called_nativeStat (w : World) (c : Call) :
    (w.called c).nativeStat = w.nativeStat := rfl

@[simp] theorem World.called_files (w : World) (c : Call) :
    (w.called c).files = w.files := rfl

@[simp] theorem World.called_createFile (w : World) (c : Call) :
    (w.called c).createFile = w.createFile := rfl

@[simp] theorem World.called_log (w : World) (c : Call) :
    (w.called c).log = w.log ++ [c] := rfl

/-- Unfolding of `get_dev_ino` on a valid handle whose query succeeds. -/
theorem get_dev_ino_success (T : Target) (h : HANDLE) (out : DevIno) (w : World)
    (fi : BY_HANDLE_FILE_INFORMATION) (hv : h ≠ INVALID_HANDLE_VALUE)
    (hq : w.fileInformation h = some fi) :
    get_dev_ino T h out w =
      (0, { dev := resdev T fi, ino := resino T fi },
        w.called (Call.GetFileInformationByHandle h)) := by
  unfold get_dev_ino
  simp [hv, hq]

/-- Unfolding of `get_dev_ino` on the invalid handle or on a failing query. -/
theorem get_dev_ino_unavailable (T : Target) (h : HANDLE) (out : DevIno) (w : World)
    (hbad : h = INVALID_HANDLE_VALUE ∨ w.fileInformation h = none) :
    (get_dev_ino T h out w).1 = 0 ∧ (get_dev_ino T h out w).2.1 = { dev := 0, ino := 0 } := by
  unfold get_dev_ino
  by_cases hv : h = INVALID_HANDLE_VALUE
  · simp [hv]
  · rcases hbad with hb | hb
    · exact absurd hb hv
    · simp [hv, hb]

/-! ## Claims on file identity -/

/-- C1: the inode of `get_dev_ino` is not the fold `low32(f) XOR (f >> 32)` of the 48-bit
reference number `f`.  For the reference number `2 ^ 32` (`nFileIndexHigh = 1`,
`nFileIndexLow = 0`) the fold is `1`, while the code, which shifts the low double word
instead of `f`, stores inode `0` on every build configuration. -/
theorem get_dev_ino_ignores_high_word (T : Target) :
    World.sample.fileInformation 100 = some ⟨0x12345678, 1, 0⟩ ∧
    ino64 ⟨0x12345678, 1, 0⟩ = 2 ^ 32 ∧
    spec_fold (ino64 ⟨0x12345678, 1, 0⟩) = 1 ∧
    (get_dev_ino T 100 ⟨7, 7⟩ World.sample).1 = 0 ∧
    (get_dev_ino T 100 ⟨7, 7⟩ World.sample).2.1.ino = 0 := by
  have hq : World.sample.fileInformation 100 = some ⟨0x12345678, 1, 0⟩ := rfl
  have hv : (100 : HANDLE) ≠ INVALID_HANDLE_VALUE := by decide
  have hL : LODWORD (FileReferenceNumber ⟨0x12345678, 1, 0⟩) = 0 := by decide
  have hS : shrDWORD T.wideShift 0 (INOSIZE T) = 0 := by
    unfold shrDWORD
    cases T.wideShift <;> simp
  refine ⟨hq, by decide, by decide, ?_, ?_⟩
  · rw [get_dev_ino_success T 100 ⟨7, 7⟩ World.sample _ hv hq]
  · rw [get_dev_ino_success T 100 ⟨7, 7⟩ World.sample _ hv hq]
    show resino T ⟨0x12345678, 1, 0⟩ = 0
    unfold resino
    rw [hL, hS]
    exact CIntTy.cast_zero _

/-- C2: two successful queries with the same volume serial number and reference numbers
that agree in their low 48 bits give equal `(device, inode)` pairs. -/
theorem get_dev_ino_same_file (T : Target) (h1 h2 : HANDLE) (o1 o2 : DevIno) (w1 w2 : World)
    (fi1 fi2 : BY_HANDLE_FILE_INFORMATION)
    (hv1 : h1 ≠ INVALID_HANDLE_VALUE) (hv2 : h2 ≠ INVALID_HANDLE_VALUE)
    (hq1 : w1.fileInformation h1 = some fi1) (hq2 : w2.fileInformation h2 = some fi2)
    (hvol : fi1.dwVolumeSerialNumber = fi2.dwVolumeSerialNumber)
    (href : ino64 fi1 % 2 ^ 48 = ino64 fi2 % 2 ^ 48) :
    (get_dev_ino T h1 o1 w1).2.1 = (get_dev_ino T h2 o2 w2).2.1 := by
  rw [get_dev_ino_success T h1 o1 w1 fi1 hv1 hq1, get_dev_ino_success T h2 o2 w2 fi2 hv2 hq2]
  have hF : FileReferenceNumber fi1 = FileReferenceNumber fi2 := by
    rw [FileReferenceNumber_eq_mod, FileReferenceNumber_eq_mod, href]
  show ({ dev := resdev T fi1, ino := resino T fi1 } : DevIno) = _
  unfold resdev resino
  rw [hF, hvol]

/-- Witness for C2: handles 100 and 101 of the sample world carry reference numbers that
differ only in the sequence number. -/
theorem get_dev_ino_same_file_witness :
    ino64 ⟨0x12345678, 1, 0⟩ ≠ ino64 ⟨0x12345678, 0xABCD0001, 0⟩ ∧
    (get_dev_ino Target.documented 100 ⟨1, 2⟩ World.sample).2.1 =
      (get_dev_ino Target.documented 101 ⟨3, 4⟩ World.sample).2.1 :=
  ⟨by decide,
   get_dev_ino_same_file Target.documented 100 101 ⟨1, 2⟩ ⟨3, 4⟩ World.sample World.sample
    ⟨0x12345678, 1, 0⟩ ⟨0x12345678, 0xABCD0001, 0⟩ (by decide) (by decide) rfl rfl rfl
    (by decide)⟩

/-- C10 as stated fails: on the documented configuration (`dev_t` a 2-byte `short`) the
volume serial number `0x12345678` is stored as device `0x5678`. -/
theorem get_dev_ino_dev_truncated :
    World.sample.fileInformation 100 = some ⟨0x12345678, 1, 0⟩ ∧
    (get_dev_ino Target.documented 100 ⟨0, 0⟩ World.sample).1 = 0 ∧
    (get_dev_ino Target.documented 100 ⟨0, 0⟩ World.sample).2.1.dev = 0x5678 ∧
    (get_dev_ino Target.documented 100 ⟨0, 0⟩ World.sample).2.1.dev ≠ 0x12345678 := by
  decide

/-- C10, amended: after a successful query the device is the volume serial number
converted to `dev_t`; it is the volume serial number itself whenever that number is
representable in `dev_t`, hence for every 32-bit serial number when `dev_t` is an
unsigned 32-bit type. -/
theorem get_dev_ino_dev (T : Target) (h : HANDLE) (out : DevIno) (w : World)
    (fi : BY_HANDLE_FILE_INFORMATION) (hv : h ≠ INVALID_HANDLE_VALUE)
    (hq : w.fileInformation h = some fi) (h32 : fi.dwVolumeSerialNumber < 2 ^ 32) :
    (get_dev_ino T h out w).2.1.dev = T.dev_t.cast (fi.dwVolumeSerialNumber : Int) ∧
    (T.dev_t.Representable (fi.dwVolumeSerialNumber : Int) →
      (get_dev_ino T h out w).2.1.dev = (fi.dwVolumeSerialNumber : Int)) ∧
    (T.dev_t = ⟨4, false⟩ →
      (get_dev_ino T h out w).2.1.dev = (fi.dwVolumeSerialNumber : Int)) := by
  rw [get_dev_ino_success T h out w fi hv hq]
  have hd : resdev T fi = T.dev_t.cast (fi.dwVolumeSerialNumber : Int) := by
    unfold resdev
    rw [Nat.mod_eq_of_lt h32]
  refine ⟨hd, ?_, ?_⟩
  · intro hr
    show resdev T fi = _
    rw [hd, CIntTy.cast_eq_self _ _ hr]
  · intro ht
    show resdev T fi = _
    rw [hd, CIntTy.cast_eq_self]
    unfold CIntTy.Representable
    rw [ht]
    simp only [CIntTy.bits]
    norm_num
    have : ((fi.dwVolumeSerialNumber : Nat) : Int) < ((2 ^ 32 : Nat) : Int) :=
      Int.ofNat_lt.mpr h32
    simpa using this

/-- Witness for the amended C10: with a 32-bit unsigned `dev_t` the device of handle 100
is the whole serial number `0x12345678`. -/
theorem get_dev_ino_dev_witness :
    (get_dev_ino Target.wideDev 100 ⟨0, 0⟩ World.sample).2.1.dev = 0x12345678 :=
  (get_dev_ino_dev Target.wideDev 100 ⟨0, 0⟩ World.sample ⟨0x12345678, 1, 0⟩
    (by decide) rfl (by decide)).2.2 rfl

/-- C8 as stated fails: for a path that names no existing file `get_dev_ino_filename`
returns the error status `-1`, not `0`, and stores nothing in the output pair. -/
theorem get_dev_ino_filename_missing_path :
    World.sample.files "zz".toList = none ∧
    (get_dev_ino_filename Target.documented (some "zz".toList) ⟨5, 6⟩ World.sample).1 = -1 ∧
    (get_dev_ino_filename Target.documented (some "zz".toList) ⟨5, 6⟩ World.sample).2.1 =
      ⟨5, 6⟩ := by
  decide

/-- C8, amended: `get_dev_ino` and `get_dev_ino_fd` store device 0 and inode 0 and return
0 when the handle is invalid or the query fails; `get_dev_ino_filename` returns 0 for a
null or empty path, returns -1 for a path that names no existing file, and stores
device 0 and inode 0 and returns 0 when the file exists but cannot be opened or
queried. -/
theorem identity_unavailable (T : Target) (out : DevIno) (w : World) :
    (∀ h : HANDLE, h = INVALID_HANDLE_VALUE ∨ w.fileInformation h = none →
      (get_dev_ino T h out w).1 = 0 ∧ (get_dev_ino T h out w).2.1 = ⟨0, 0⟩) ∧
    (∀ fd : Int,
      w.osfhandle fd = INVALID_HANDLE_VALUE ∨ w.fileInformation (w.osfhandle fd) = none →
      (get_dev_ino_fd T fd out w).1 = 0 ∧ (get_dev_ino_fd T fd out w).2.1 = ⟨0, 0⟩) ∧
    (get_dev_ino_filename T none out w).1 = 0 ∧
    (get_dev_ino_filename T (some []) out w).1 = 0 ∧
    (∀ p : CString, p ≠ [] → w.files p = none →
      (get_dev_ino_filename T (some p) out w).1 = -1) ∧
    (∀ p : CString, p ≠ [] → w.files p ≠ none →
      w.createFile p 0 0 (FILE_FLAG_BACKUP_SEMANTICS ||| FILE_ATTRIBUTE_READONLY)
          = INVALID_HANDLE_VALUE ∨
        w.fileInformation
          (w.createFile p 0 0 (FILE_FLAG_BACKUP_SEMANTICS ||| FILE_ATTRIBUTE_READONLY))
          = none →
      (get_dev_ino_filename T (some p) out w).1 = 0 ∧
      (get_dev_ino_filename T (some p) out w).2.1 = ⟨0, 0⟩) := by
  refine ⟨?_, ?_, rfl, rfl, ?_, ?_⟩
  · intro h hbad
    exact get_dev_ino_unavailable T h out w hbad
  · intro fd hbad
    unfold get_dev_ino_fd
    exact get_dev_ino_unavailable T _ out _ hbad
  · intro p hp hnone
    cases p with
    | nil => exact absurd rfl hp
    | cons c cs =>
      simp [get_dev_ino_filename, _access, hnone]
  · intro p hp hsome hbad
    cases p with
    | nil => exact absurd rfl hp
    | cons c cs =>
      obtain ⟨f, hf⟩ := Option.ne_none_iff_exists'.mp hsome
      have hg := get_dev_ino_unavailable T
        (w.createFile (c :: cs) 0 0 (FILE_FLAG_BACKUP_SEMANTICS ||| FILE_ATTRIBUTE_READONLY)) out
        (((w.called (Call.access (c :: cs) F_OK)).called
          (Call.CreateFile (c :: cs) 0 0
            (FILE_FLAG_BACKUP_SEMANTICS ||| FILE_ATTRIBUTE_READONLY)))) hbad
      simp only [get_dev_ino_filename, _access, World.called_files, hf]
      have hm : ¬ (F_OK = R_OK ∧ f.readable = false) := by
        intro hc
        exact absurd hc.1 (by decide)
      simp only [hm, if_false, ne_eq, not_true_eq_false, World.called_createFile]
      exact hg

/-- Witness for the amended C8: handle 55 of the sample world cannot be queried, and the
path `y` exists but cannot be opened. -/
theorem identity_unavailable_witness :
    ((get_dev_ino Target.documented 55 ⟨5, 6⟩ World.sample).1 = 0 ∧
      (get_dev_ino Target.documented 55 ⟨5, 6⟩ World.sample).2.1 = ⟨0, 0⟩) ∧
    ((get_dev_ino_fd Target.documented 8 ⟨5, 6⟩ World.sample).1 = 0 ∧
      (get_dev_ino_fd Target.documented 8 ⟨5, 6⟩ World.sample).2.1 = ⟨0, 0⟩) ∧
    (get_dev_ino_filename Target.documented (some "zz".toList) ⟨5, 6⟩ World.sample).1 = -1 ∧
    ((get_dev_ino_filename Target.documented (some "y".toList) ⟨5, 6⟩ World.sample).1 = 0 ∧
      (get_dev_ino_filename Target.documented (some "y".toList) ⟨5, 6⟩ World.sample).2.1 =
        ⟨0, 0⟩) :=
  have H := identity_unavailable Target.documented ⟨5, 6⟩ World.sample
  ⟨H.1 55 (Or.inr rfl), H.2.1 8 (Or.inl rfl),
   H.2.2.2.2.1 "zz".toList (by decide) rfl,
   H.2.2.2.2.2 "y".toList (by decide) (by decide) (Or.inl rfl)⟩

/-! ## Claims on `fstati64` -/

/-- When the native stat succeeds and reports a non-zero inode, `fstati64` returns the
native record unchanged; when it reports inode 0, `st_dev` and `st_ino` are the pair
derived by `get_dev_ino_fd` and the other fields are the native ones. -/
theorem fstati64_inode (T : Target) (fd : Int) (st : stati64) (w : World)
    (hok : ¬ (w.nativeStat fd st).1 < 0) :
    ((w.nativeStat fd st).2.st_ino ≠ 0 →
      (fstati64 T fd st w).1 = (w.nativeStat fd st).1 ∧
      (fstati64 T fd st w).2.1 = (w.nativeStat fd st).2 ∧
      (fstati64 T fd st w).2.1.st_ino ≠ 0) ∧
    ((w.nativeStat fd st).2.st_ino = 0 →
      (fstati64 T fd st w).1 =
        (get_dev_ino_fd T fd ⟨(w.nativeStat fd st).2.st_dev, 0⟩
          (w.called (Call.fstati64 fd))).1 ∧
      (fstati64 T fd st w).2.1 =
        { (w.nativeStat fd st).2 with
          st_dev := (get_dev_ino_fd T fd ⟨(w.nativeStat fd st).2.st_dev, 0⟩
            (w.called (Call.fstati64 fd))).2.1.dev
          st_ino := (get_dev_ino_fd T fd ⟨(w.nativeStat fd st).2.st_dev, 0⟩
            (w.called (Call.fstati64 fd))).2.1.ino }) := by
  constructor
  · intro hino
    simp only [fstati64, World.called_nativeStat, hok, if_false, hino]
    exact ⟨trivial, trivial, hino⟩
  · intro hino
    simp only [fstati64, World.called_nativeStat, hok, if_false, hino, if_true]
    exact ⟨trivial, trivial⟩

/-- Descriptor 3 of the sample world, whose native stat reports inode 0: the record
returned by `fstati64` carries the pair of `get_dev_ino_fd`. -/
theorem fstati64_inode_sample :
    (fstati64 Target.documented 3 stati64.zero World.sample).2.1 =
      { (World.sample.nativeStat 3 stati64.zero).2 with
        st_dev := (get_dev_ino_fd Target.documented 3
          ⟨(World.sample.nativeStat 3 stati64.zero).2.st_dev, 0⟩
          (World.sample.called (Call.fstati64 3))).2.1.dev
        st_ino := (get_dev_ino_fd Target.documented 3
          ⟨(World.sample.nativeStat 3 stati64.zero).2.st_dev, 0⟩
          (World.sample.called (Call.fstati64 3))).2.1.ino } :=
  ((fstati64_inode Target.documented 3 stati64.zero World.sample (by decide)).2 rfl).2

/-- The inode derived for the reference number `2 ^ 32` is 0 on every build
configuration: its low double word is 0. -/
theorem resino_low_word_zero (T : Target) (v : Nat) : resino T ⟨v, 1, 0⟩ = 0 := by
  have hF : FileReferenceNumber ⟨v, 1, 0⟩ = FileReferenceNumber ⟨0, 1, 0⟩ := rfl
  have hL : LODWORD (FileReferenceNumber ⟨v, 1, 0⟩) = 0 := by
    rw [hF]
    decide
  have hS : shrDWORD T.wideShift 0 (INOSIZE T) = 0 := by
    unfold shrDWORD
    cases T.wideShift <;> simp
  unfold resino
  rw [hL, hS]
  exact CIntTy.cast_zero _

/-- C3: the guarantee of a non-zero `st_ino` is broken by the code.  On descriptor 3 of
the sample world the native `_fstati64` succeeds with inode 0 and the file-information
query succeeds with the non-zero 48-bit reference number `2 ^ 32`, whose fold
`low32(f) XOR (f >> 32)` is 1; `fstati64` nevertheless returns success with
`st_ino = 0`, on every build configuration, because `get_dev_ino` hashes the low
double word only. -/
theorem fstati64_zero_inode (T : Target) :
    (World.sample.nativeStat 3 stati64.zero).1 = 0 ∧
    World.sample.fileInformation (World.sample.osfhandle 3) = some ⟨0x12345678, 1, 0⟩ ∧
    FileReferenceNumber ⟨0x12345678, 1, 0⟩ = 2 ^ 32 ∧
    spec_fold (ino64 ⟨0x12345678, 1, 0⟩) = 1 ∧
    (fstati64 T 3 stati64.zero World.sample).1 = 0 ∧
    (fstati64 T 3 stati64.zero World.sample).2.1.st_ino = 0 := by
  have hq : (World.sample.called (Call.fstati64 3)).fileInformation 100 =
      some ⟨0x12345678, 1, 0⟩ := rfl
  have hv : (100 : HANDLE) ≠ INVALID_HANDLE_VALUE := by decide
  have hfd : ∀ out : DevIno,
      get_dev_ino_fd T 3 out (World.sample.called (Call.fstati64 3)) =
        (0, { dev := resdev T ⟨0x12345678, 1, 0⟩, ino := resino T ⟨0x12345678, 1, 0⟩ },
          (((World.sample.called (Call.fstati64 3)).called (Call.get_osfhandle 3)).called
            (Call.GetFileInformationByHandle 100))) := by
    intro out
    unfold get_dev_ino_fd
    exact get_dev_ino_success T 100 out _ _ hv hq
  have H := (fstati64_inode T 3 stati64.zero World.sample (by decide)).2 rfl
  refine ⟨by decide, by decide, by decide, by decide, ?_, ?_⟩
  · rw [H.1, hfd]
  · rw [H.2, hfd]
    exact resino_low_word_zero T _

/-- C9: when the native `_fstati64` fails, `fstati64` returns -1, makes no further native
call (no identity derivation) and returns the record as the native call left it; and
whenever `fstati64` does not return -1 the native call did not fail. -/
theorem fstati64_failure (T : Target) (fd : Int) (st : stati64) (w : World) :
    ((w.nativeStat fd st).1 < 0 →
      (fstati64 T fd st w).1 = -1 ∧
      (fstati64 T fd st w).2.1 = (w.nativeStat fd st).2 ∧
      (fstati64 T fd st w).2.2.log = w.log ++ [Call.fstati64 fd]) ∧
    ((fstati64 T fd st w).1 ≠ -1 → ¬ (w.nativeStat fd st).1 < 0) := by
  have key : (w.nativeStat fd st).1 < 0 →
      (fstati64 T fd st w).1 = -1 ∧
      (fstati64 T fd st w).2.1 = (w.nativeStat fd st).2 ∧
      (fstati64 T fd st w).2.2.log = w.log ++ [Call.fstati64 fd] := by
    intro hneg
    simp only [fstati64, World.called_nativeStat, hneg, if_true, World.called_log]
    exact ⟨trivial, trivial, trivial⟩
  exact ⟨key, fun hne hneg => hne (key hneg).1⟩

/-- Witness for C9: the native stat of the sample world fails on descriptor 12. -/
theorem fstati64_failure_witness :
    (World.sample.nativeStat 12 stati64.zero).1 < 0 ∧
    (fstati64 Target.documented 12 stati64.zero World.sample).1 = -1 ∧
    (fstati64 Target.documented 12 stati64.zero World.sample).2.1 =
      (World.sample.nativeStat 12 stati64.zero).2 ∧
    (fstati64 Target.documented 12 stati64.zero World.sample).2.2.log =
      World.sample.log ++ [Call.fstati64 12] :=
  ⟨by decide,
   (fstati64_failure Target.documented 12 stati64.zero World.sample).1 (by decide)⟩

/-! ## Claims on `link` -/

theorem strrchr_absent (c : Char) (post : CString) (h : c ∉ post) : strrchr post c = none := by
  induction post with
  | nil => rfl
  | cons x xs ih =>
    have hx : x ≠ c := fun e => h (by rw [e]; exact List.mem_cons_self _ _)
    have hxs : c ∉ xs := fun m => h (List.mem_cons_of_mem _ m)
    simp [strrchr, ih hxs, hx]

theorem strrchr_last (c : Char) (pre post : CString) (h : c ∉ post) :
    strrchr (pre ++ c :: post) c = some pre.length := by
  induction pre with
  | nil => simp [strrchr, strrchr_absent c post h]
  | cons x xs ih =>
    show strrchr (x :: (xs ++ c :: post)) c = _
    simp [strrchr, ih]

theorem CopyFile_success (src dst : CString) (b : Bool) (w : World)
    (h : (CopyFile src dst b w).1 ≠ 0) :
    (CopyFile src dst b w).2.files dst = w.files src ∧ w.files src ≠ none := by
  unfold CopyFile at h ⊢
  simp only [World.called_files] at h ⊢
  cases hsrc : w.files src with
  | none => simp [hsrc] at h
  | some f =>
    simp only [hsrc] at h ⊢
    by_cases hr : f.readable = false
    · simp [hr] at h
    · simp only [hr, if_false] at h ⊢
      cases hdst : w.files dst with
      | none => simp
      | some g =>
        simp only [hdst] at h ⊢
        by_cases hc : b = true ∨ g.readonly = true
        · simp [hc] at h
        · simp [hc]

theorem CopyFile_failure (src dst : CString) (b : Bool) (w : World)
    (h : (CopyFile src dst b w).1 = 0) : (CopyFile src dst b w).2.files = w.files := by
  unfold CopyFile at h ⊢
  simp only [World.called_files] at h ⊢
  cases hsrc : w.files src with
  | none => rfl
  | some f =>
    simp only [hsrc] at h ⊢
    by_cases hr : f.readable = false
    · simp [hr]
    · simp only [hr, if_false] at h ⊢
      cases hdst : w.files dst with
      | none => simp [hdst] at h
      | some g =>
        simp only [hdst] at h ⊢
        by_cases hc : b = true ∨ g.readonly = true
        · simp [hc]
        · simp [hc] at h

theorem link_result_fst (r : Int × World) :
    (link_result r).1 = (if r.1 = 0 then -1 else 0) ∧ (link_result r).2.files = r.2.files := by
  unfold link_result
  by_cases h : r.1 = 0
  · simp [h, set_errno]
  · simp [h]

/-- Unfolding of `link` when the source exists as given. -/
theorem link_source_exists (s d : CString) (w : World) (f : File) (hs : w.files s = some f) :
    link (some s) (some d) w =
      link_result (CopyFile s d false (w.called (Call.access s F_OK))) := by
  have hm : ¬ (F_OK = R_OK ∧ f.readable = false) := fun hc => absurd hc.1 (by decide)
  simp [link, _access, hs, hm]

/-- C4 as stated fails: in the sample world `x` and `y` both exist, `link x y` returns 0
and the content of `y` is replaced by the content of `x`. -/
theorem link_overwrites_destination :
    World.sample.files "x".toList = some ⟨[1, 2, 3], true, false⟩ ∧
    World.sample.files "y".toList = some ⟨[9], true, false⟩ ∧
    (link (some "x".toList) (some "y".toList) World.sample).1 = 0 ∧
    (link (some "x".toList) (some "y".toList) World.sample).2.files "y".toList =
      some ⟨[1, 2, 3], true, false⟩ ∧
    (symlink (some "x".toList) (some "y".toList) World.sample).1 = 0 := by
  decide

/-- C4, amended: when the source exists as given and the destination already exists,
`link` (and `symlink`, which delegates to it) copies with `bFailIfExists = FALSE`: if the
source is readable and the destination is not read-only, the destination becomes a copy
of the source and 0 is returned; -1 is returned only when the copy fails, and then no
file is changed. -/
theorem link_existing_destination (s d : CString) (w : World) (f g : File)
    (hs : w.files s = some f) (hd : w.files d = some g) :
    symlink (some s) (some d) w = link (some s) (some d) w ∧
    link (some s) (some d) w =
      link_result (CopyFile s d false (w.called (Call.access s F_OK))) ∧
    (f.readable = true → g.readonly = false →
      (link (some s) (some d) w).1 = 0 ∧ (link (some s) (some d) w).2.files d = some f) ∧
    ((link (some s) (some d) w).1 = -1 → (link (some s) (some d) w).2.files = w.files) := by
  have hl := link_source_exists s d w f hs
  refine ⟨rfl, hl, ?_, ?_⟩
  · intro hr hro
    rw [hl]
    have hc : CopyFile s d false (w.called (Call.access s F_OK)) =
        (1, { (w.called (Call.access s F_OK)).called (Call.CopyFile s d false) with
              files := fun p => if p = d then some f else w.files p }) := by
      simp [CopyFile, hs, hd, hr, hro]
    rw [hc]
    simp [link_result]
  · intro hret
    rw [hl] at hret ⊢
    have h1 := link_result_fst (CopyFile s d false (w.called (Call.access s F_OK)))
    rw [h1.2]
    by_cases h0 : (CopyFile s d false (w.called (Call.access s F_OK))).1 = 0
    · rw [CopyFile_failure _ _ _ _ h0]
      rfl
    · rw [h1.1, if_neg h0] at hret
      exact absurd hret (by decide)

/-- Witness for the amended C4: `x` and `y` of the sample world. -/
theorem link_existing_destination_witness :
    (link (some "x".toList) (some "y".toList) World.sample).1 = 0 ∧
    (link (some "x".toList) (some "y".toList) World.sample).2.files "y".toList =
      some ⟨[1, 2, 3], true, false⟩ :=
  (link_existing_destination "x".toList "y".toList World.sample ⟨[1, 2, 3], true, false⟩
    ⟨[9], true, false⟩ rfl rfl).2.2.1 rfl rfl

/-- C5: when the source `s` does not exist as given and the destination is
`pre ++ "/" ++ post` with no `/` in `post`, `link` resolves the source to
`pre ++ "/" ++ s`; when that path is readable it copies from it to the destination
and returns 0 if the copy succeeds, the destination then being a copy of the
resolved source. -/
theorem link_relative_source (s pre post : CString) (w : World) (f : File)
    (hs : w.files s = none) (hpost : '/' ∉ post)
    (hr : w.files (pre ++ ['/'] ++ s) = some f) (hread : f.readable = true) :
    link (some s) (some (pre ++ '/' :: post)) w =
      link_result (CopyFile (pre ++ ['/'] ++ s) (pre ++ '/' :: post) false
        ((w.called (Call.access s F_OK)).called (Call.access (pre ++ ['/'] ++ s) R_OK))) ∧
    ((CopyFile (pre ++ ['/'] ++ s) (pre ++ '/' :: post) false
        ((w.called (Call.access s F_OK)).called (Call.access (pre ++ ['/'] ++ s) R_OK))).1 ≠ 0 →
      (link (some s) (some (pre ++ '/' :: post)) w).1 = 0 ∧
      (link (some s) (some (pre ++ '/' :: post)) w).2.files (pre ++ '/' :: post) = some f) := by
  have hl : link (some s) (some (pre ++ '/' :: post)) w =
      link_result (CopyFile (pre ++ ['/'] ++ s) (pre ++ '/' :: post) false
        ((w.called (Call.access s F_OK)).called (Call.access (pre ++ ['/'] ++ s) R_OK))) := by
    have htake : List.take pre.length (pre ++ '/' :: post) = pre := by simp
    simp only [link, _access, World.called_files, hs, strdup, malloc,
      strrchr_last '/' pre post hpost, htake, hr, hread]
    simp
  refine ⟨hl, ?_⟩
  intro hok
  rw [hl]
  have h1 := link_result_fst (CopyFile (pre ++ ['/'] ++ s) (pre ++ '/' :: post) false
    ((w.called (Call.access s F_OK)).called (Call.access (pre ++ ['/'] ++ s) R_OK)))
  have h2 := CopyFile_success _ _ _ _ hok
  rw [h1.1, h1.2, if_neg hok, h2.1]
  exact ⟨rfl, hr⟩

/-- Witness for C5: `link("a.txt", "b/c.txt")` in the sample world, which has no `a.txt`
but a readable `b/a.txt`, returns 0 and `b/c.txt` is a copy of `b/a.txt`. -/
theorem link_relative_source_witness :
    World.sample.files "a.txt".toList = none ∧
    (link (some "a.txt".toList) (some "b/c.txt".toList) World.sample).1 = 0 ∧
    (link (some "a.txt".toList) (some "b/c.txt".toList) World.sample).2.files "b/c.txt".toList =
      some ⟨[7, 7], true, false⟩ :=
  ⟨rfl,
   (link_relative_source "a.txt".toList "b".toList "c.txt".toList World.sample
    ⟨[7, 7], true, false⟩ rfl (by decide) rfl rfl).2 (by decide)⟩

/-! ## Claims on the time conversion -/

theorem LONG_representable (x : Int) (h : -2147483648 ≤ x ∧ x < 2147483648) :
    LONG.Representable x := by
  unfold CIntTy.Representable
  simp only [LONG, CIntTy.bits]
  norm_num
  omega

theorem LONGLONG_representable (x : Int)
    (h : -9223372036854775808 ≤ x ∧ x < 9223372036854775808) : LONGLONG.Representable x := by
  unfold CIntTy.Representable
  simp only [LONGLONG, CIntTy.bits]
  norm_num
  omega

theorem UINT64_representable (x : Int) (h : 0 ≤ x ∧ x < 18446744073709551616) :
    UINT64.Representable x := by
  unfold CIntTy.Representable
  simp only [UINT64, CIntTy.bits]
  norm_num
  omega

/-- The macro value for seconds that fit the 32-bit operand of `Int32x32To64`. -/
theorem WINTIME_eq (sec usec : Int) (hsec : -2147483648 ≤ sec ∧ sec < 2147483648)
    (husec : 0 ≤ usec ∧ usec < 1000000) :
    WINTIME sec usec = sec * 10000000 + usec * 10 + 116444736000000000 := by
  unfold WINTIME Int32x32To64
  rw [CIntTy.cast_eq_self LONG sec (LONG_representable _ hsec),
    CIntTy.cast_eq_self LONG 10000000 (LONG_representable _ (by omega)),
    CIntTy.cast_eq_self LONGLONG (sec * 10000000) (LONGLONG_representable _ (by omega)),
    CIntTy.cast_eq_self LONGLONG (sec * 10000000 + 116444736000000000)
      (LONGLONG_representable _ (by omega)),
    CIntTy.cast_eq_self LONG (usec * 10) (LONG_representable _ (by omega)),
    CIntTy.cast_eq_self LONGLONG _ (LONGLONG_representable _ (by omega))]
  omega

theorem wintm_eq (t : timeval) (hsec : -2147483648 ≤ t.tv_sec ∧ t.tv_sec < 2147483648)
    (husec : 0 ≤ t.tv_usec ∧ t.tv_usec < 1000000) :
    (wintm t : Int) = t.tv_sec * 10000000 + t.tv_usec * 10 + 116444736000000000 := by
  unfold wintm
  rw [WINTIME_eq _ _ hsec husec, CIntTy.cast_eq_self UINT64 _ (UINT64_representable _ (by omega))]
  exact Int.toNat_of_nonneg (by omega)

theorem toFILETIME_reassemble (tm : Nat) (h : tm < 2 ^ 64) :
    (toFILETIME tm).dwLowDateTime + (toFILETIME tm).dwHighDateTime * 2 ^ 32 = tm := by
  simp only [toFILETIME, Nat.shiftRight_eq_div_pow]
  omega

/-- C6 as stated fails: for `seconds = 2 ^ 31` the operand is narrowed to 32 bits by
`Int32x32To64`, and the tick value stored for the access and the modify time is not
`seconds * 10,000,000 + microseconds * 10 + 116444736000000000`. -/
theorem wintm_narrows_seconds :
    (wintm ⟨2147483648, 0⟩ : Int) = -2147483648 * 10000000 + 0 * 10 + 116444736000000000 ∧
    (wintm ⟨2147483648, 0⟩ : Int) ≠ 2147483648 * 10000000 + 0 * 10 + 116444736000000000 ∧
    (__hutimes 100 (⟨2147483648, 0⟩, ⟨2147483648, 0⟩) World.sample).2.log =
      [Call.SetFileTime 100 (toFILETIME 94969899520000000) (toFILETIME 94969899520000000)] := by
  decide

/-- C6, amended: for seconds in the signed 32-bit range and `0 <= microseconds <
1,000,000` the tick value is exactly `seconds * 10,000,000 + microseconds * 10 +
116444736000000000`, the two halves of each `FILETIME` reassemble to it, and these are
the access and modify times that `__hutimes`, and through it `futimes` and `utimes`,
pass to `SetFileTime`. -/
theorem hutimes_ticks (handle : HANDLE) (ta tm : timeval) (w : World)
    (hasec : -2147483648 ≤ ta.tv_sec ∧ ta.tv_sec < 2147483648)
    (hausec : 0 ≤ ta.tv_usec ∧ ta.tv_usec < 1000000)
    (hmsec : -2147483648 ≤ tm.tv_sec ∧ tm.tv_sec < 2147483648)
    (hmusec : 0 ≤ tm.tv_usec ∧ tm.tv_usec < 1000000) :
    (wintm ta : Int) = ta.tv_sec * 10000000 + ta.tv_usec * 10 + 116444736000000000 ∧
    (wintm tm : Int) = tm.tv_sec * 10000000 + tm.tv_usec * 10 + 116444736000000000 ∧
    (toFILETIME (wintm ta)).dwLowDateTime + (toFILETIME (wintm ta)).dwHighDateTime * 2 ^ 32
      = wintm ta ∧
    (toFILETIME (wintm tm)).dwLowDateTime + (toFILETIME (wintm tm)).dwHighDateTime * 2 ^ 32
      = wintm tm ∧
    (__hutimes handle (ta, tm) w).2.log =
      w.log ++ [Call.SetFileTime handle (toFILETIME (wintm ta)) (toFILETIME (wintm tm))] ∧
    (∀ fd : Int, (futimes fd (ta, tm) w).2.log =
      w.log ++ [Call.get_osfhandle fd,
        Call.SetFileTime (w.osfhandle fd) (toFILETIME (wintm ta)) (toFILETIME (wintm tm))]) ∧
    (∀ name : CString,
      w.createFile name (GENERIC_READ ||| GENERIC_WRITE) (FILE_SHARE_READ ||| FILE_SHARE_WRITE)
        FILE_FLAG_BACKUP_SEMANTICS ≠ INVALID_HANDLE_VALUE →
      (utimes name (ta, tm) w).2.log =
        w.log ++ [Call.CreateFile name (GENERIC_READ ||| GENERIC_WRITE)
            (FILE_SHARE_READ ||| FILE_SHARE_WRITE) FILE_FLAG_BACKUP_SEMANTICS,
          Call.SetFileTime
            (w.createFile name (GENERIC_READ ||| GENERIC_WRITE)
              (FILE_SHARE_READ ||| FILE_SHARE_WRITE) FILE_FLAG_BACKUP_SEMANTICS)
            (toFILETIME (wintm ta)) (toFILETIME (wintm tm)),
          Call.CloseHandle
            (w.createFile name (GENERIC_READ ||| GENERIC_WRITE)
              (FILE_SHARE_READ ||| FILE_SHARE_WRITE) FILE_FLAG_BACKUP_SEMANTICS)]) := by
  have ha := wintm_eq ta hasec hausec
  have hm := wintm_eq tm hmsec hmusec
  have hlog : ∀ (h : HANDLE) (v : World), (__hutimes h (ta, tm) v).2.log =
      v.log ++ [Call.SetFileTime h (toFILETIME (wintm ta)) (toFILETIME (wintm tm))] := by
    intro h v
    unfold __hutimes
    by_cases hset : (v.called (Call.SetFileTime h (toFILETIME (wintm ta))
        (toFILETIME (wintm tm)))).setFileTime h (toFILETIME (wintm ta))
        (toFILETIME (wintm tm)) = false
    · simp [hset, set_errno]
    · simp [hset]
  refine ⟨ha, hm, toFILETIME_reassemble _ (by omega), toFILETIME_reassemble _ (by omega),
    hlog handle w, ?_, ?_⟩
  · intro fd
    unfold futimes
    rw [hlog]
    simp
  · intro name hne
    simp only [utimes, World.called_createFile, hne, if_false, World.called_log, hlog]
    simp

/-- Witness for the amended C6: one second and 5 microseconds after the epoch, and the
last second of the 32-bit range. -/
theorem hutimes_ticks_witness :
    (wintm ⟨1, 5⟩ : Int) = 116444736010000050 ∧
    (wintm ⟨2147483647, 999999⟩ : Int) = 137919572479999990 :=
  have H := hutimes_ticks 100 ⟨1, 5⟩ ⟨2147483647, 999999⟩ World.sample
    (by decide) (by decide) (by decide) (by decide)
  ⟨H.1, H.2.1⟩

/-! ## Claims on `la_lseek` and `la_write` -/

/-- C7 as stated fails: on a `_WIN64` build `la_write` on the negative descriptor -1 with
a length above `UINT32_MAX` sets the error code to `EINVAL`, not `EBADF`. -/
theorem la_write_length_checked_first :
    Target.wideDev.win64 = true ∧
    (la_write Target.wideDev (-1) [] (2 ^ 32) World.sample).1 = -1 ∧
    (la_write Target.wideDev (-1) [] (2 ^ 32) World.sample).2.errno = EINVAL ∧
    (la_write Target.wideDev (-1) [] (2 ^ 32) World.sample).2.errno ≠ EBADF := by
  decide

/-- C7, amended: on a negative descriptor `la_lseek` and `la_write` return -1 and make no
native call; the error code is `EBADF`, except that `la_write` on a `_WIN64` build with
a length above `UINT32_MAX` reports `EINVAL`. -/
theorem bad_descriptor (T : Target) (fd : Int) (w : World) (hfd : fd < 0) :
    (∀ offset whence : Int,
      (la_lseek fd offset whence w).1 = -1 ∧
      (la_lseek fd offset whence w).2.errno = EBADF ∧
      (la_lseek fd offset whence w).2.log = w.log) ∧
    (∀ (buf : List Nat) (nbytes : Nat),
      (la_write T fd buf nbytes w).1 = -1 ∧
      (la_write T fd buf nbytes w).2.log = w.log ∧
      (¬ (T.win64 = true ∧ nbytes > UINT32_MAX) →
        (la_write T fd buf nbytes w).2.errno = EBADF) ∧
      (T.win64 = true ∧ nbytes > UINT32_MAX →
        (la_write T fd buf nbytes w).2.errno = EINVAL)) := by
  constructor
  · intro offset whence
    simp [la_lseek, hfd, set_errno]
  · intro buf nbytes
    by_cases hbig : T.win64 = true ∧ nbytes > UINT32_MAX
    · simp [la_write, hbig, set_errno]
    · simp only [la_write, hbig, if_false, hfd, if_true, set_errno]
      simp

/-- Witness for the amended C7: descriptor -1 in the sample world. -/
theorem bad_descriptor_witness :
    ((la_lseek (-1) 0 0 World.sample).1 = -1 ∧
      (la_lseek (-1) 0 0 World.sample).2.errno = EBADF ∧
      (la_lseek (-1) 0 0 World.sample).2.log = World.sample.log) ∧
    (la_write Target.documented (-1) [1, 2] 2 World.sample).2.errno = EBADF :=
  have H := bad_descriptor Target.documented (-1) World.sample (by decide)
  ⟨H.1 0 0, (H.2 [1, 2] 2).2.2.1 (by decide)⟩

end ArchiveWindows
